import Mathlib

/-!
# eth-relayer: the BEEFY justification store and the Ethereum relay worker

A shallow embedding of

* `workers/beefyrelayer/store/beefy.go` (signature translation, Merkle proof
  generation with self-verification, the two message builders), and
* `workers/ethrelayer/main.go` (`Worker.Start`, `connect`, `disconnect`,
  `queryFinalizedBlockNumber`),

followed by the properties proved about them.

Conventions of the embedding.

* A Go byte is a `Nat`; arithmetic on bytes is reduced `% 256` where Go wraps.
  A byte slice or byte array is a `List Nat`.
* A Go call that can panic (index out of range) returns an `Option`: `none` is
  the panic, `some r` is a normal return.
* A Go return `(T, error)` is a pair `T × Option GoError`; the second component
  is `none` for a `nil` error.
* Collaborators whose code is outside the repository (the Merkle tree library,
  the hash functions, the chain connections) are parameters.
-/

namespace Store

/-- A Go byte slice or byte array. -/
abbrev Bytes := List Nat

/-- Go `error` values returned by the embedded functions. -/
inductive GoError where
  /-- An error value handed back by a collaborator (library, connection, RPC call). -/
  | external (code : Nat)
  /-- The value of `fmt.Errorf("failed to verify proof")`. -/
  | failedToVerifyProof
deriving DecidableEq, Repr

/-- Go slice indexing `xs[i]` with an `int` index: `none` is the index-out-of-range panic. -/
def index? {α : Type} (xs : List α) (i : Int) : Option α :=
  if 0 ≤ i then xs[i.toNat]? else none

/-- The type `common.Address`; `Address.Bytes` is the method `Bytes()`. -/
abbrev Address := Bytes

/-- The method `common.Address.Bytes()`. -/
def Address.Bytes (a : Address) : Bytes := a

/-- Modelled from the spec: the type `BeefySignature`, declared outside the given sources;
a 65 byte array `r(32) || s(32) || v(1)`, passed by value. -/
abbrev BeefySignature := Bytes

/-- Modelled from the spec: the type of a signature slot, declared outside the given
sources; an optional signature whose absence is represented explicitly (`hasValue`), with
the `Value` field that the code reads. -/
structure OptionBeefySignature where
  hasValue : Bool
  Value : BeefySignature
deriving DecidableEq, Repr

/-- Modelled from the spec: the type `Commitment`, declared outside the given sources; a
payload, a block number and a validator-set id, the two numbers being unsigned machine
integers. -/
structure Commitment where
  Payload : Bytes
  BlockNumber : Nat
  ValidatorSetID : Nat
deriving DecidableEq, Repr

/-- Modelled from the spec: the type `SignedCommitment`, declared outside the given
sources; a commitment and one signature slot per validator position. -/
structure SignedCommitment where
  Commitment : Commitment
  Signatures : List OptionBeefySignature
deriving DecidableEq, Repr

/-- The struct `BeefyJustification`. -/
structure BeefyJustification where
  ValidatorAddresses : List Address
  SignedCommitment : SignedCommitment
deriving DecidableEq, Repr

/-- The struct `NewSignatureCommitmentMessage`; a `*big.Int` field is an `Option Int`
(`none` is the nil pointer of the zero value). -/
structure NewSignatureCommitmentMessage where
  CommitmentHash : Bytes
  ValidatorClaimsBitfield : List Int
  ValidatorSignatureCommitment : Bytes
  ValidatorPosition : Option Int
  ValidatorPublicKey : Address
  ValidatorPublicKeyMerkleProof : List Bytes
deriving DecidableEq, Repr

/-- The struct `beefylightclient.BeefyLightClientCommitment`
(`Payload [32]byte`, `BlockNumber uint64`, `ValidatorSetId uint32`). -/
structure BeefyLightClientCommitment where
  Payload : Bytes
  BlockNumber : Nat
  ValidatorSetId : Nat
deriving DecidableEq, Repr

/-- The struct `CompleteSignatureCommitmentMessage`. -/
structure CompleteSignatureCommitmentMessage where
  ID : Option Int
  Commitment : BeefyLightClientCommitment
  Signatures : List Bytes
  ValidatorPositions : List Int
  ValidatorPublicKeys : List Address
  ValidatorPublicKeyMerkleProofs : List (List Bytes)
deriving DecidableEq, Repr

/-- Modelled from the spec: the type `BeefyRelayInfo`, declared outside the given sources;
only its `ContractID` is read, taken as an `int64` value. -/
structure BeefyRelayInfo where
  ContractID : Int
deriving DecidableEq, Repr

/-- The zero value `NewSignatureCommitmentMessage{}`. -/
def NewSignatureCommitmentMessage.zero : NewSignatureCommitmentMessage :=
  { CommitmentHash := List.replicate 32 0
    ValidatorClaimsBitfield := []
    ValidatorSignatureCommitment := []
    ValidatorPosition := none
    ValidatorPublicKey := List.replicate 20 0
    ValidatorPublicKeyMerkleProof := [] }

/-- The zero value `CompleteSignatureCommitmentMessage{}`. -/
def CompleteSignatureCommitmentMessage.zero : CompleteSignatureCommitmentMessage :=
  { ID := none
    Commitment := { Payload := List.replicate 32 0, BlockNumber := 0, ValidatorSetId := 0 }
    Signatures := []
    ValidatorPositions := []
    ValidatorPublicKeys := []
    ValidatorPublicKeyMerkleProofs := [] }

/-- A proof of the Merkle tree library (`merkletree.Proof`). -/
structure Proof where
  Hashes : List Bytes
  Index : Nat
deriving DecidableEq, Repr

/-- The collaborators of the store that live outside the repository: the two
hash functions, the serialisation of a commitment, and the Merkle tree library
(`NewUsing`, `GenerateProof`, `Root`, `VerifyProofUsing`). -/
structure Externals where
  /-- The type `merkletree.MerkleTree`. -/
  Tree : Type
  /-- The function `blake2b.Sum256`. -/
  blake2bSum256 : Bytes → Bytes
  /-- The method `Commitment.Bytes()`. -/
  commitmentBytes : Commitment → Bytes
  /-- The function `crypto.Keccak256`. -/
  cryptoKeccak256 : Bytes → Bytes
  /-- `merkletree.NewUsing(data, hash, nil)`. -/
  NewUsing : List Bytes → (Bytes → Bytes) → Except GoError Tree
  /-- `tree.GenerateProof(data)`. -/
  GenerateProof : Tree → Bytes → Except GoError Proof
  /-- `tree.Root()`. -/
  Root : Tree → Bytes
  /-- `merkletree.VerifyProofUsing(data, proof, root, hash, nil)`, returning `(bool, error)`. -/
  VerifyProofUsing : Bytes → Proof → Bytes → (Bytes → Bytes) → Bool × Option GoError

/-- `Keccak256.Hash`: the hashing method handed to the Merkle tree library. -/
def Keccak256.Hash (X : Externals) (data : Bytes) : Bytes :=
  X.cryptoKeccak256 data

/-- `BeefySigToEthSig`: keep `r` and `s`, add 27 to the recovery byte (a `uint8` addition). -/
def BeefySigToEthSig (beefySig : BeefySignature) : Bytes :=
  let sigValrs := beefySig.take 64
  let sigValv := beefySig.getD 64 0
  let sigValvAdded := (sigValv + 27) % 256
  sigValrs ++ [sigValvAdded]

/-- The loop body `var hash32Byte [32]byte; copy(hash32Byte[:], hash)`. -/
def hash32Byte (hash : Bytes) : Bytes :=
  hash.take 32 ++ List.replicate (32 - hash.length) 0

/-- `BeefyJustification.GenerateMerkleProofOffchain`. -/
def GenerateMerkleProofOffchain (X : Externals) (b : BeefyJustification) (valAddrIndex : Int) :
    Option (List Bytes × Option GoError) :=
  let beefyTreeData := b.ValidatorAddresses.map Address.Bytes
  match X.NewUsing beefyTreeData (Keccak256.Hash X) with
  | .error err => some ([], some err)
  | .ok beefyMerkleTree =>
    match index? beefyTreeData valAddrIndex with
    | none => none
    | some leaf =>
      match X.GenerateProof beefyMerkleTree leaf with
      | .error err => some ([], some err)
      | .ok sigProof =>
        let root := X.Root beefyMerkleTree
        match X.VerifyProofUsing leaf sigProof root (Keccak256.Hash X) with
        | (_, some err) => some ([], some err)
        | (false, none) => some ([], some GoError.failedToVerifyProof)
        | (true, none) => some (sigProof.Hashes.map hash32Byte, none)

/-- `BeefyJustification.BuildNewSignatureCommitmentMessage`. -/
def BuildNewSignatureCommitmentMessage (X : Externals) (b : BeefyJustification)
    (valAddrIndex : Int) (initialBitfield : List Int) :
    Option (NewSignatureCommitmentMessage × Option GoError) :=
  let commitmentHash := X.blake2bSum256 (X.commitmentBytes b.SignedCommitment.Commitment)
  match GenerateMerkleProofOffchain X b valAddrIndex with
  | none => none
  | some (_, some err) => some (NewSignatureCommitmentMessage.zero, some err)
  | some (sig0ProofContents, none) =>
    match index? b.SignedCommitment.Signatures valAddrIndex with
    | none => none
    | some slot =>
      let sigValEthereum := BeefySigToEthSig slot.Value
      match index? b.ValidatorAddresses valAddrIndex with
      | none => none
      | some pubKey =>
        some ({ CommitmentHash := commitmentHash
                ValidatorClaimsBitfield := initialBitfield
                ValidatorSignatureCommitment := sigValEthereum
                ValidatorPublicKey := pubKey
                ValidatorPosition := some valAddrIndex
                ValidatorPublicKeyMerkleProof := sig0ProofContents }, none)

/-- The first loop of `BuildCompleteSignatureCommitmentMessage`: for `i` from `0` to
`len(bitfield) - 1`, append `i` when the one-byte substring `bitfield[i : i+1]` is `"1"`
(byte 49). The bitfield is the byte sequence of the Go string. -/
def validatorPositionsOf (bitfield : Bytes) : List Int :=
  (List.range bitfield.length).foldl
    (fun validatorPositions i =>
      if bitfield.getD i 0 = 49 then validatorPositions ++ [(i : Int)] else validatorPositions)
    []

/-- The three slices the second loop of `BuildCompleteSignatureCommitmentMessage` appends to. -/
structure Collected where
  signatures : List Bytes
  validatorPublicKeys : List Address
  validatorPublicKeyMerkleProofs : List (List Bytes)
deriving DecidableEq, Repr

/-- The second loop of `BuildCompleteSignatureCommitmentMessage`, over the remaining
positions: `none` is a panic, `some (.error err)` the early `return ..., err`. -/
def collectLoop (X : Externals) (b : BeefyJustification) :
    List Int → Collected → Option (Except GoError Collected)
  | [], acc => some (.ok acc)
  | validatorPosition :: rest, acc =>
    match index? b.SignedCommitment.Signatures validatorPosition with
    | none => none
    | some slot =>
      let ethSig := BeefySigToEthSig slot.Value
      let signatures := acc.signatures ++ [ethSig]
      match index? b.ValidatorAddresses validatorPosition with
      | none => none
      | some pubKey =>
        let validatorPublicKeys := acc.validatorPublicKeys ++ [pubKey]
        match GenerateMerkleProofOffchain X b validatorPosition with
        | none => none
        | some (_, some err) => some (.error err)
        | some (merkleProof, none) =>
          collectLoop X b rest
            { signatures := signatures
              validatorPublicKeys := validatorPublicKeys
              validatorPublicKeyMerkleProofs := acc.validatorPublicKeyMerkleProofs ++ [merkleProof] }

/-- `BeefyJustification.BuildCompleteSignatureCommitmentMessage`. The conversions
`uint64(...)` and `uint32(...)` of the commitment fields are reductions modulo `2^64` and
`2^32`. -/
def BuildCompleteSignatureCommitmentMessage (X : Externals) (b : BeefyJustification)
    (info : BeefyRelayInfo) (bitfield : Bytes) :
    Option (CompleteSignatureCommitmentMessage × Option GoError) :=
  let validationDataID := info.ContractID
  let validatorPositions := validatorPositionsOf bitfield
  match collectLoop X b validatorPositions
      { signatures := [], validatorPublicKeys := [], validatorPublicKeyMerkleProofs := [] } with
  | none => none
  | some (.error err) => some (CompleteSignatureCommitmentMessage.zero, some err)
  | some (.ok acc) =>
    let commitment : BeefyLightClientCommitment :=
      { Payload := b.SignedCommitment.Commitment.Payload
        BlockNumber := b.SignedCommitment.Commitment.BlockNumber % 2 ^ 64
        ValidatorSetId := b.SignedCommitment.Commitment.ValidatorSetID % 2 ^ 32 }
    some ({ ID := some validationDataID
            Commitment := commitment
            Signatures := acc.signatures
            ValidatorPositions := validatorPositions
            ValidatorPublicKeys := acc.validatorPublicKeys
            ValidatorPublicKeyMerkleProofs := acc.validatorPublicKeyMerkleProofs }, none)

end Store

namespace Ethrelayer

open Store (GoError)

/-- What `Worker.Start` does to the outside world, in program order. -/
inductive Event where
  /-- The call `w.ethconn.Connect(ctx)` returned nil: the Ethereum connection is open. -/
  | ethConnected
  /-- The call `w.paraconn.Connect(ctx)` returned nil: the parachain connection is open. -/
  | paraConnected
  /-- The task `<-ctx.Done(); w.disconnect()` was handed to the task group by `eg.Go`. -/
  | cleanupRegistered
  /-- The call `listener.Start(ctx, eg, startBlock, descendantsUntilFinal)`. -/
  | listenerStart (startBlock descendantsUntilFinal : Nat)
  /-- The call `writer.Start(ctx, eg)`. -/
  | writerStart
  /-- The call `w.ethconn.Close()`. -/
  | ethClosed
  /-- The call `w.paraconn.Close()`. -/
  | paraClosed
deriving DecidableEq, Repr

/-- A chain connection object; `connected` holds after a successful `Connect`. -/
structure Connection where
  connected : Bool
deriving DecidableEq, Repr

/-- The struct `Worker`: the connection pointers (`none` is nil) and the one
configuration value `Start` reads, `ethconfig.DescendantsUntilFinal`. -/
structure Worker where
  DescendantsUntilFinal : Nat
  ethconn : Option Connection
  paraconn : Option Connection
deriving DecidableEq, Repr

/-- The worker together with the record of what has been done so far. -/
structure State where
  w : Worker
  trace : List Event
deriving DecidableEq, Repr

/-- The answers of the collaborators during one run of `Start`; an `Option GoError`
is the returned `error` (`none` is nil). -/
structure Env where
  /-- The error of `sr25519.NewKeypairFromSeed`. -/
  newKeypairFromSeed : Option GoError
  /-- The error of `w.ethconn.Connect(ctx)`. -/
  ethConnect : Option GoError
  /-- The error of `w.paraconn.Connect(ctx)`. -/
  paraConnect : Option GoError
  /-- The error of `types.CreateStorageKey`. -/
  createStorageKey : Option GoError
  /-- The value left in `finalizedHeader.Number` by `GetStorageLatest`, and its error. -/
  getStorageLatest : Nat × Option GoError
  /-- The error of `listener.Start` for a start block and a finality depth. -/
  listenerStart : Nat → Nat → Option GoError
  /-- The error of `writer.Start`. -/
  writerStart : Option GoError

/-- `Worker.connect`. -/
def Worker.connect (env : Env) (s : State) : State × Option GoError :=
  match env.newKeypairFromSeed with
  | some err => (s, some err)
  | none =>
    let s1 : State :=
      { w := { DescendantsUntilFinal := s.w.DescendantsUntilFinal
               ethconn := some { connected := false }
               paraconn := some { connected := false } }
        trace := s.trace }
    match env.ethConnect with
    | some err => (s1, some err)
    | none =>
      let s2 : State :=
        { w := { DescendantsUntilFinal := s1.w.DescendantsUntilFinal
                 ethconn := some { connected := true }
                 paraconn := s1.w.paraconn }
          trace := s1.trace ++ [Event.ethConnected] }
      match env.paraConnect with
      | some err => (s2, some err)
      | none =>
        ({ w := { DescendantsUntilFinal := s2.w.DescendantsUntilFinal
                  ethconn := s2.w.ethconn
                  paraconn := some { connected := true } }
           trace := s2.trace ++ [Event.paraConnected] }, none)

/-- `Worker.disconnect`: close and forget each connection that is not nil. -/
def Worker.disconnect (s : State) : State :=
  let s1 : State :=
    match s.w.ethconn with
    | some _ =>
      { w := { DescendantsUntilFinal := s.w.DescendantsUntilFinal
               ethconn := none
               paraconn := s.w.paraconn }
        trace := s.trace ++ [Event.ethClosed] }
    | none => s
  match s1.w.paraconn with
  | some _ =>
    { w := { DescendantsUntilFinal := s1.w.DescendantsUntilFinal
             ethconn := s1.w.ethconn
             paraconn := none }
      trace := s1.trace ++ [Event.paraClosed] }
  | none => s1

/-- `Worker.queryFinalizedBlockNumber`; `uint64(finalizedHeader.Number)` is a reduction
modulo `2^64`. -/
def Worker.queryFinalizedBlockNumber (env : Env) : Nat × Option GoError :=
  match env.createStorageKey with
  | some err => (0, some err)
  | none =>
    match env.getStorageLatest with
    | (_, some err) => (0, some err)
    | (number, none) => (number % 2 ^ 64, none)

/-- `Worker.Start`. The sum `finalizedBlockNumber+1` is a `uint64` addition and
`uint64(w.ethconfig.DescendantsUntilFinal)` a conversion, both modulo `2^64`. -/
def Worker.Start (env : Env) (w : Worker) : State × Option GoError :=
  match Worker.connect env { w := w, trace := [] } with
  | (s, some err) => (s, some err)
  | (s, none) =>
    let s1 : State := { w := s.w, trace := s.trace ++ [Event.cleanupRegistered] }
    match Worker.queryFinalizedBlockNumber env with
    | (_, some err) => (s1, some err)
    | (finalizedBlockNumber, none) =>
      let startBlock := (finalizedBlockNumber + 1) % 2 ^ 64
      let depth := s1.w.DescendantsUntilFinal % 2 ^ 64
      let s2 : State := { w := s1.w, trace := s1.trace ++ [Event.listenerStart startBlock depth] }
      match env.listenerStart startBlock depth with
      | some err => (s2, some err)
      | none =>
        let s3 : State := { w := s2.w, trace := s2.trace ++ [Event.writerStart] }
        match env.writerStart with
        | some err => (s3, some err)
        | none => (s3, none)

/-- What cancelling the context does after `Start` has returned: the registered cleanup
task, if there is one, runs `disconnect`. -/
def cancel (s : State) : State :=
  if Event.cleanupRegistered ∈ s.trace then Worker.disconnect s else s

/-- The `listener.Start` calls recorded in a trace, as (start block, finality depth). -/
def listenerStarts : List Event → List (Nat × Nat)
  | [] => []
  | Event.listenerStart a d :: rest => (a, d) :: listenerStarts rest
  | _ :: rest => listenerStarts rest

end Ethrelayer

/-! ## Concrete collaborators and inputs on which the functions are evaluated -/

namespace Sample

open Store

/-- A 32 byte digest standing in for the hash functions: 31 zero bytes and a checksum. -/
def digest (data : Bytes) : Bytes :=
  List.replicate 31 0 ++ [data.foldl (fun h x => (h * 31 + x + 7) % 251) 1]

/-- A one-level hash tree: the data and the digests of its leaves. -/
structure FlatTree where
  data : List Bytes
  nodes : List Bytes
deriving DecidableEq, Repr

/-- An instance of the collaborators: construction fails on empty data, proving fails
for data that is absent and proves the first match otherwise, the root is the digest of the
concatenated leaf digests, and verification recomputes both. -/
def externals : Externals where
  Tree := FlatTree
  blake2bSum256 := digest
  commitmentBytes c := c.Payload ++ [c.BlockNumber % 256, c.ValidatorSetID % 256]
  cryptoKeccak256 := digest
  NewUsing data hash :=
    if data = [] then .error (GoError.external 1) else .ok { data := data, nodes := data.map hash }
  GenerateProof t leaf :=
    if leaf ∈ t.data then .ok { Hashes := t.nodes, Index := t.data.indexOf leaf }
    else .error (GoError.external 2)
  Root t := digest t.nodes.flatten
  VerifyProofUsing leaf proof root hash :=
    (decide (proof.Hashes[proof.Index]? = some (hash leaf) ∧ hash proof.Hashes.flatten = root), none)

/-- A collaborator instance whose verification always answers `false`. -/
def rejecting : Externals where
  Tree := FlatTree
  blake2bSum256 := digest
  commitmentBytes c := c.Payload ++ [c.BlockNumber % 256, c.ValidatorSetID % 256]
  cryptoKeccak256 := digest
  NewUsing data hash :=
    if data = [] then .error (GoError.external 1) else .ok { data := data, nodes := data.map hash }
  GenerateProof t leaf :=
    if leaf ∈ t.data then .ok { Hashes := t.nodes, Index := t.data.indexOf leaf }
    else .error (GoError.external 2)
  Root t := digest t.nodes.flatten
  VerifyProofUsing _ _ _ _ := (false, none)

/-- The 20 byte address whose bytes are all `n`. -/
def addr (n : Nat) : Address := List.replicate 20 n

/-- A 65 byte signature: 64 bytes `n` and the recovery byte `v`. -/
def sig (n v : Nat) : BeefySignature := List.replicate 64 n ++ [v]

/-- A present signature slot. -/
def present (n v : Nat) : OptionBeefySignature := { hasValue := true, Value := sig n v }

/-- An empty signature slot: no value, the `Value` field is the zero array. -/
def absent : OptionBeefySignature := { hasValue := false, Value := List.replicate 65 0 }

/-- A commitment with a given validator-set id. -/
def commitment (validatorSetID : Nat) : Commitment :=
  { Payload := List.replicate 32 9, BlockNumber := 1000, ValidatorSetID := validatorSetID }

/-- Eight validators; all have signed except the validator at position 3. -/
def justification8 : BeefyJustification :=
  { ValidatorAddresses := [addr 10, addr 11, addr 12, addr 13, addr 14, addr 15, addr 16, addr 17]
    SignedCommitment :=
      { Commitment := commitment 7
        Signatures := [present 0 0, present 1 1, present 2 0, absent, present 4 1, present 5 1,
          present 6 0, present 7 1] } }

/-- One validator whose signature slot is empty. -/
def justificationAbsent : BeefyJustification :=
  { ValidatorAddresses := [addr 10]
    SignedCommitment := { Commitment := commitment 7, Signatures := [absent] } }

/-- One signing validator and a validator-set id of `2^32`. -/
def justificationWide : BeefyJustification :=
  { ValidatorAddresses := [addr 10]
    SignedCommitment := { Commitment := commitment 4294967296, Signatures := [present 0 0] } }

/-- The bitfield string `"00100101"`, selecting positions 2, 5 and 7. -/
def bitfield257 : Bytes := [48, 48, 49, 48, 48, 49, 48, 49]

/-- One validator whose slot is marked present and holds the zero array. -/
def justificationZeroSigned : BeefyJustification :=
  { ValidatorAddresses := [addr 10]
    SignedCommitment :=
      { Commitment := commitment 7
        Signatures := [{ hasValue := true, Value := List.replicate 65 0 }] } }

/-- The message expected for `justification8` and the bitfield `"00100101"`. -/
def message257 : CompleteSignatureCommitmentMessage :=
  { ID := some 5
    Commitment := { Payload := List.replicate 32 9, BlockNumber := 1000, ValidatorSetId := 7 }
    Signatures := [sig 2 27, sig 5 28, sig 7 28]
    ValidatorPositions := [2, 5, 7]
    ValidatorPublicKeys := [addr 12, addr 15, addr 17]
    ValidatorPublicKeyMerkleProofs :=
      List.replicate 3 (justification8.ValidatorAddresses.map digest) }

/-- A worker before `Start`: no connections yet, twelve descendants until final. -/
def worker0 : Ethrelayer.Worker :=
  { DescendantsUntilFinal := 12, ethconn := none, paraconn := none }

/-- A run in which every collaborator succeeds and the stored finalized block number is
`number`. -/
def envOk (number : Nat) : Ethrelayer.Env :=
  { newKeypairFromSeed := none
    ethConnect := none
    paraConnect := none
    createStorageKey := none
    getStorageLatest := (number, none)
    listenerStart := fun _ _ => none
    writerStart := none }

/-- A run in which the Ethereum connection opens and the parachain connection fails. -/
def envParaFails : Ethrelayer.Env :=
  { newKeypairFromSeed := none
    ethConnect := none
    paraConnect := some (GoError.external 7)
    createStorageKey := none
    getStorageLatest := (100, none)
    listenerStart := fun _ _ => none
    writerStart := none }

/-- A run in which both connections open and reading the storage fails. -/
def envQueryFails : Ethrelayer.Env :=
  { newKeypairFromSeed := none
    ethConnect := none
    paraConnect := none
    createStorageKey := none
    getStorageLatest := (0, some (GoError.external 9))
    listenerStart := fun _ _ => none
    writerStart := none }

/-- One level up in a binary hash tree: the hash of each pair of neighbouring nodes. -/
def pairUp (hash : Bytes → Bytes) : List Bytes → List Bytes
  | a :: c :: rest => hash (a ++ c) :: pairUp hash rest
  | rest => rest

/-- The least power of two that is at least `n`, searched from `p` by doubling. -/
def powerOfTwoFrom : Nat → Nat → Nat → Nat
  | 0, p, _ => p
  | fuel + 1, p, n => if n ≤ p then p else powerOfTwoFrom fuel (2 * p) n

/-- The root above a level of a binary hash tree. -/
def rootOf (hash : Bytes → Bytes) : Nat → List Bytes → Bytes
  | 0, level => level.headD []
  | fuel + 1, level =>
    if level.length ≤ 1 then level.headD [] else rootOf hash fuel (pairUp hash level)

/-- The sibling of node `i` on each level from the leaves up to below the root. -/
def siblings (hash : Bytes → Bytes) : Nat → List Bytes → Nat → List Bytes
  | 0, _, _ => []
  | fuel + 1, level, i =>
    if level.length ≤ 1 then []
    else level.getD (if i % 2 = 0 then i + 1 else i - 1) [] ::
      siblings hash fuel (pairUp hash level) (i / 2)

/-- The hash obtained from a node and the siblings on its way up. -/
def climb (hash : Bytes → Bytes) : List Bytes → Nat → Bytes → Bytes
  | [], _, h => h
  | s :: rest, i, h =>
    climb hash rest (i / 2) (if i % 2 = 0 then hash (h ++ s) else hash (s ++ h))

/-- A binary hash tree: the data and the leaf level, padded to a power of two. -/
structure BinaryTree where
  data : List Bytes
  leaves : List Bytes
deriving DecidableEq, Repr

/-- An instance of the collaborators with a binary hash tree: the leaves are the digests
of the data, the leaf level is filled up to a power of two with empty nodes, a proof is the
list of siblings on the way up, and verification climbs from the digest of the data to the
root. -/
def binary : Externals where
  Tree := BinaryTree
  blake2bSum256 := digest
  commitmentBytes c := c.Payload ++ [c.BlockNumber % 256, c.ValidatorSetID % 256]
  cryptoKeccak256 := digest
  NewUsing data hash :=
    if data = [] then .error (GoError.external 1)
    else .ok { data := data
               leaves := data.map hash ++
                 List.replicate (powerOfTwoFrom data.length 1 data.length - data.length) [] }
  GenerateProof t leaf :=
    if leaf ∈ t.data then
      .ok { Hashes := siblings digest t.leaves.length t.leaves (t.data.indexOf leaf)
            Index := t.data.indexOf leaf }
    else .error (GoError.external 2)
  Root t := rootOf digest t.leaves.length t.leaves
  VerifyProofUsing leaf proof root hash :=
    (decide (climb hash proof.Hashes proof.Index (hash leaf) = root), none)

/-- Three validators, all of which have signed. -/
def justification3 : BeefyJustification :=
  { ValidatorAddresses := [addr 10, addr 11, addr 12]
    SignedCommitment :=
      { Commitment := commitment 7
        Signatures := [present 0 0, present 1 1, present 2 0] } }

end Sample

/-! ## Signature translation -/

namespace Store

theorem BeefySigToEthSig_length (beefySig : BeefySignature) (hlen : beefySig.length = 65) :
    (BeefySigToEthSig beefySig).length = 65 := by
  simp [BeefySigToEthSig, hlen]

theorem BeefySigToEthSig_take (beefySig : BeefySignature) (hlen : beefySig.length = 65) :
    (BeefySigToEthSig beefySig).take 64 = beefySig.take 64 := by
  have h64 : (beefySig.take 64).length = 64 := by simp [hlen]
  unfold BeefySigToEthSig
  simp only []
  rw [List.take_append_of_le_length (by omega)]
  rw [List.take_of_length_le (by omega)]

theorem BeefySigToEthSig_last (beefySig : BeefySignature) (hlen : beefySig.length = 65) :
    (BeefySigToEthSig beefySig).getD 64 0 = (beefySig.getD 64 0 + 27) % 256 := by
  have h64 : (beefySig.take 64).length = 64 := by simp [hlen]
  unfold BeefySigToEthSig
  simp only []
  rw [List.getD_append_right _ _ _ _ (by omega)]
  simp [h64]

/-- C1 (as the code behaves): `BeefySigToEthSig` has no error path and rejects nothing.
For every 65 byte signature, whatever its recovery byte `v`, it returns 65 bytes: the
first 64 bytes of the input followed by `(v + 27) mod 256`. -/
theorem BeefySigToEthSig_never_rejects (beefySig : BeefySignature)
    (hlen : beefySig.length = 65) :
    BeefySigToEthSig beefySig = beefySig.take 64 ++ [(beefySig.getD 64 0 + 27) % 256] ∧
    (BeefySigToEthSig beefySig).length = 65 ∧
    (BeefySigToEthSig beefySig).take 64 = beefySig.take 64 ∧
    (BeefySigToEthSig beefySig).getD 64 0 = (beefySig.getD 64 0 + 27) % 256 :=
  ⟨rfl, BeefySigToEthSig_length beefySig hlen, BeefySigToEthSig_take beefySig hlen,
    BeefySigToEthSig_last beefySig hlen⟩

/-- Witness of C1 (as the code behaves) at a signature whose recovery byte is 255. -/
theorem BeefySigToEthSig_never_rejects_witness :
    (Sample.sig 3 255).length = 65 ∧
    BeefySigToEthSig (Sample.sig 3 255) = (Sample.sig 3 255).take 64 ++ [26] :=
  ⟨by decide, (BeefySigToEthSig_never_rejects (Sample.sig 3 255) (by decide)).1⟩

/-- C1 fails on the code: the already translated 65 byte signature with recovery byte 27
(not 0 or 1) is not rejected; a signature with recovery byte 54 is returned. -/
theorem BeefySigToEthSig_accepts_translated :
    (Sample.sig 3 27).length = 65 ∧ (Sample.sig 3 27).getD 64 0 = 27 ∧
    BeefySigToEthSig (Sample.sig 3 27) = Sample.sig 3 54 ∧
    BeefySigToEthSig (BeefySigToEthSig (Sample.sig 3 0)) = Sample.sig 3 54 := by
  decide

/-- C2: for every 65 byte signature whose recovery byte `v` is 0 or 1, `BeefySigToEthSig`
returns exactly 65 bytes, the first 64 equal to the first 64 of the input and the last
equal to `v + 27` (0 gives 27, 1 gives 28). -/
theorem BeefySigToEthSig_correct (beefySig : BeefySignature) (hlen : beefySig.length = 65)
    (hv : beefySig.getD 64 0 = 0 ∨ beefySig.getD 64 0 = 1) :
    (BeefySigToEthSig beefySig).length = 65 ∧
    (BeefySigToEthSig beefySig).take 64 = beefySig.take 64 ∧
    (BeefySigToEthSig beefySig).getD 64 0 = beefySig.getD 64 0 + 27 ∧
    (beefySig.getD 64 0 = 0 → (BeefySigToEthSig beefySig).getD 64 0 = 27) ∧
    (beefySig.getD 64 0 = 1 → (BeefySigToEthSig beefySig).getD 64 0 = 28) := by
  have hlast := BeefySigToEthSig_last beefySig hlen
  refine ⟨BeefySigToEthSig_length beefySig hlen, BeefySigToEthSig_take beefySig hlen, ?_, ?_, ?_⟩
  · rcases hv with h | h <;> rw [hlast, h]
  · intro h; rw [hlast, h]
  · intro h; rw [hlast, h]

/-- Witness of C2 at a signature with recovery byte 1. -/
theorem BeefySigToEthSig_correct_witness :
    (Sample.sig 5 1).length = 65 ∧ (BeefySigToEthSig (Sample.sig 5 1)).getD 64 0 = 28 :=
  ⟨by decide,
    (BeefySigToEthSig_correct (Sample.sig 5 1) (by decide) (Or.inr (by decide))).2.2.2.2
      (by decide)⟩

/-! ## Merkle proof generation -/


theorem index?_eq_some {α : Type} (xs : List α) (i : Int) (a : α) (h : index? xs i = some a) :
    0 ≤ i ∧ i.toNat < xs.length ∧ xs[i.toNat]? = some a := by
  unfold index? at h
  split at h
  · rename_i h0
    exact ⟨h0, (List.getElem?_eq_some_iff.mp h).1, h⟩
  · cases h

theorem index?_eq_none {α : Type} (xs : List α) (i : Int) :
    index? xs i = none ↔ (i < 0 ∨ (xs.length : Int) ≤ i) := by
  unfold index?
  split
  · rename_i h0
    rw [List.getElem?_eq_none_iff]
    omega
  · rename_i h0
    simp only [true_iff]
    omega

theorem hash32Byte_length (hash : Bytes) : (hash32Byte hash).length = 32 := by
  unfold hash32Byte
  simp only [List.length_append, List.length_take, List.length_replicate]
  omega

theorem hash32Byte_of_length (hash : Bytes) (h : hash.length = 32) : hash32Byte hash = hash := by
  unfold hash32Byte
  rw [h, List.take_of_length_le (by omega)]
  simp

/-- The only way in which `GenerateMerkleProofOffchain` returns hashes and a nil error. -/
theorem GenerateMerkleProofOffchain_ok (X : Externals) (b : BeefyJustification)
    (valAddrIndex : Int) (hashes : List Bytes)
    (h : GenerateMerkleProofOffchain X b valAddrIndex = some (hashes, none)) :
    ∃ tree leaf sigProof,
      X.NewUsing (b.ValidatorAddresses.map Address.Bytes) (Keccak256.Hash X) = .ok tree ∧
      index? (b.ValidatorAddresses.map Address.Bytes) valAddrIndex = some leaf ∧
      X.GenerateProof tree leaf = .ok sigProof ∧
      X.VerifyProofUsing leaf sigProof (X.Root tree) (Keccak256.Hash X) = (true, none) ∧
      hashes = sigProof.Hashes.map hash32Byte := by
  unfold GenerateMerkleProofOffchain at h
  simp only [] at h
  split at h
  · simp at h
  · rename_i tree htree
    split at h
    · cases h
    · rename_i leaf hleaf
      split at h
      · simp at h
      · rename_i sigProof hproof
        split at h
        · simp at h
        · simp at h
        · rename_i hver
          simp only [Option.some.injEq, Prod.mk.injEq, and_true] at h
          exact ⟨tree, leaf, sigProof, htree, hleaf, hproof, hver, h.symm⟩

/-- When the tree is built, the leaf is found and a proof is generated, a verification
that does not answer `(true, nil)` makes the function return an error and an empty proof. -/
theorem GenerateMerkleProofOffchain_rejects (X : Externals) (b : BeefyJustification)
    (valAddrIndex : Int) (tree : X.Tree) (leaf : Bytes) (sigProof : Proof)
    (htree : X.NewUsing (b.ValidatorAddresses.map Address.Bytes) (Keccak256.Hash X) = .ok tree)
    (hleaf : index? (b.ValidatorAddresses.map Address.Bytes) valAddrIndex = some leaf)
    (hproof : X.GenerateProof tree leaf = .ok sigProof)
    (hver : X.VerifyProofUsing leaf sigProof (X.Root tree) (Keccak256.Hash X) ≠ (true, none)) :
    ∃ err, GenerateMerkleProofOffchain X b valAddrIndex = some ([], some err) := by
  unfold GenerateMerkleProofOffchain
  simp only [htree, hleaf, hproof]
  split
  · rename_i err _
    exact ⟨err, rfl⟩
  · exact ⟨GoError.failedToVerifyProof, rfl⟩
  · rename_i h
    exact absurd h hver

/-- The only way in which `BuildNewSignatureCommitmentMessage` returns a message and a nil
error. -/
theorem BuildNewSignatureCommitmentMessage_ok (X : Externals) (b : BeefyJustification)
    (valAddrIndex : Int) (initialBitfield : List Int) (msg : NewSignatureCommitmentMessage)
    (h : BuildNewSignatureCommitmentMessage X b valAddrIndex initialBitfield = some (msg, none)) :
    ∃ proofContents slot pubKey,
      GenerateMerkleProofOffchain X b valAddrIndex = some (proofContents, none) ∧
      index? b.SignedCommitment.Signatures valAddrIndex = some slot ∧
      index? b.ValidatorAddresses valAddrIndex = some pubKey ∧
      msg = { CommitmentHash := X.blake2bSum256 (X.commitmentBytes b.SignedCommitment.Commitment)
              ValidatorClaimsBitfield := initialBitfield
              ValidatorSignatureCommitment := BeefySigToEthSig slot.Value
              ValidatorPublicKey := pubKey
              ValidatorPosition := some valAddrIndex
              ValidatorPublicKeyMerkleProof := proofContents } := by
  unfold BuildNewSignatureCommitmentMessage at h
  simp only [] at h
  split at h
  · cases h
  · simp at h
  · rename_i proofContents hgen
    split at h
    · cases h
    · rename_i slot hslot
      split at h
      · cases h
      · rename_i pubKey hkey
        simp only [Option.some.injEq, Prod.mk.injEq, and_true] at h
        exact ⟨proofContents, slot, pubKey, hgen, hslot, hkey, h.symm⟩

/-- Self-verification in `GenerateMerkleProofOffchain`: the generated proof is verified
before anything is returned, and what is returned is its copy into 32 byte arrays. Whenever
`GenerateMerkleProofOffchain` returns hashes with a nil error, the tree was built over the
bytes of the full validator set, the leaf is the address bytes at the index, the proof was
generated for that leaf, verification of leaf and generated proof against the root of that
tree answered `(true, nil)`, and the returned hashes are the hashes of the generated proof
in order, each copied into a 32 byte array (cut or filled with zero bytes to 32 bytes), so
they are the generated hashes when each of those is 32 bytes long. If verification answers
anything else, the function returns an error and an empty proof. The proof embedded in
every message returned by `BuildNewSignatureCommitmentMessage` is such a copy of a proof
that verified. -/
theorem GenerateMerkleProofOffchain_self_verified (X : Externals) (b : BeefyJustification)
    (valAddrIndex : Int) :
    (∀ hashes, GenerateMerkleProofOffchain X b valAddrIndex = some (hashes, none) →
      ∃ tree leaf sigProof,
        X.NewUsing (b.ValidatorAddresses.map Address.Bytes) (Keccak256.Hash X) = .ok tree ∧
        index? (b.ValidatorAddresses.map Address.Bytes) valAddrIndex = some leaf ∧
        X.GenerateProof tree leaf = .ok sigProof ∧
        X.VerifyProofUsing leaf sigProof (X.Root tree) (Keccak256.Hash X) = (true, none) ∧
        hashes = sigProof.Hashes.map hash32Byte ∧
        hashes.length = sigProof.Hashes.length ∧
        ((∀ hash ∈ sigProof.Hashes, hash.length = 32) → hashes = sigProof.Hashes)) ∧
    (∀ tree leaf sigProof,
      X.NewUsing (b.ValidatorAddresses.map Address.Bytes) (Keccak256.Hash X) = .ok tree →
      index? (b.ValidatorAddresses.map Address.Bytes) valAddrIndex = some leaf →
      X.GenerateProof tree leaf = .ok sigProof →
      X.VerifyProofUsing leaf sigProof (X.Root tree) (Keccak256.Hash X) ≠ (true, none) →
      ∃ err, GenerateMerkleProofOffchain X b valAddrIndex = some ([], some err)) ∧
    (∀ initialBitfield msg,
      BuildNewSignatureCommitmentMessage X b valAddrIndex initialBitfield = some (msg, none) →
      ∃ tree leaf sigProof,
        X.NewUsing (b.ValidatorAddresses.map Address.Bytes) (Keccak256.Hash X) = .ok tree ∧
        index? (b.ValidatorAddresses.map Address.Bytes) valAddrIndex = some leaf ∧
        X.GenerateProof tree leaf = .ok sigProof ∧
        X.VerifyProofUsing leaf sigProof (X.Root tree) (Keccak256.Hash X) = (true, none) ∧
        msg.ValidatorPublicKeyMerkleProof = sigProof.Hashes.map hash32Byte) := by
  refine ⟨?_, ?_, ?_⟩
  · intro hashes h
    obtain ⟨tree, leaf, sigProof, h1, h2, h3, h4, h5⟩ :=
      GenerateMerkleProofOffchain_ok X b valAddrIndex hashes h
    refine ⟨tree, leaf, sigProof, h1, h2, h3, h4, h5, ?_, ?_⟩
    · rw [h5, List.length_map]
    · intro hall
      rw [h5]
      conv_rhs => rw [← List.map_id sigProof.Hashes]
      exact List.map_congr_left (fun hash hmem => hash32Byte_of_length hash (hall hash hmem))
  · intro tree leaf sigProof h1 h2 h3 h4
    exact GenerateMerkleProofOffchain_rejects X b valAddrIndex tree leaf sigProof h1 h2 h3 h4
  · intro initialBitfield msg h
    obtain ⟨proofContents, slot, pubKey, hgen, _, _, hmsg⟩ :=
      BuildNewSignatureCommitmentMessage_ok X b valAddrIndex initialBitfield msg h
    obtain ⟨tree, leaf, sigProof, h1, h2, h3, h4, h5⟩ :=
      GenerateMerkleProofOffchain_ok X b valAddrIndex proofContents hgen
    refine ⟨tree, leaf, sigProof, h1, h2, h3, h4, ?_⟩
    rw [hmsg, h5]

set_option maxRecDepth 100000 in
/-- Self-verification evaluated: with eight validators the proof for position 2 is returned after a
verification that answered true, and a collaborator whose verification answers false
yields an error and an empty proof. -/
theorem GenerateMerkleProofOffchain_self_verified_witness :
    GenerateMerkleProofOffchain Sample.externals Sample.justification8 2 =
      some (Sample.justification8.ValidatorAddresses.map Sample.digest, none) ∧
    (∃ tree leaf sigProof,
      Sample.externals.NewUsing (Sample.justification8.ValidatorAddresses.map Address.Bytes)
        (Keccak256.Hash Sample.externals) = .ok tree ∧
      index? (Sample.justification8.ValidatorAddresses.map Address.Bytes) 2 = some leaf ∧
      Sample.externals.GenerateProof tree leaf = .ok sigProof ∧
      Sample.externals.VerifyProofUsing leaf sigProof (Sample.externals.Root tree)
        (Keccak256.Hash Sample.externals) = (true, none) ∧
      Sample.justification8.ValidatorAddresses.map Sample.digest =
        sigProof.Hashes.map hash32Byte ∧
      (Sample.justification8.ValidatorAddresses.map Sample.digest).length =
        sigProof.Hashes.length ∧
      ((∀ hash ∈ sigProof.Hashes, hash.length = 32) →
        Sample.justification8.ValidatorAddresses.map Sample.digest = sigProof.Hashes)) ∧
    (∃ err, GenerateMerkleProofOffchain Sample.rejecting Sample.justification8 2 =
      some ([], some err)) :=
  ⟨by rfl,
    (GenerateMerkleProofOffchain_self_verified Sample.externals Sample.justification8 2).1
      (Sample.justification8.ValidatorAddresses.map Sample.digest) (by rfl),
    (GenerateMerkleProofOffchain_self_verified Sample.rejecting Sample.justification8 2).2.1
      { data := Sample.justification8.ValidatorAddresses
        nodes := Sample.justification8.ValidatorAddresses.map Sample.digest }
      (Sample.addr 12)
      { Hashes := Sample.justification8.ValidatorAddresses.map Sample.digest, Index := 2 }
      (by rfl) (by rfl) (by rfl) (by decide)⟩

set_option maxRecDepth 100000 in
/-- C6 is broken by the code: with three validators and a binary tree whose leaf level is filled
up with empty nodes, the proof generated for index 2 starts with an empty hash and verifies
against the root, but the hashes returned (and embedded in the initial message) start with
32 zero bytes instead: they are not the generated hashes, and the same verification rejects
them. -/
theorem GenerateMerkleProofOffchain_emits_padded_proof :
    ∃ tree sigProof hashes,
      Sample.binary.NewUsing (Sample.justification3.ValidatorAddresses.map Address.Bytes)
        (Keccak256.Hash Sample.binary) = .ok tree ∧
      index? (Sample.justification3.ValidatorAddresses.map Address.Bytes) 2
        = some (Sample.addr 12) ∧
      Sample.binary.GenerateProof tree (Sample.addr 12) = .ok sigProof ∧
      sigProof.Hashes.length = 2 ∧ sigProof.Hashes.head? = some [] ∧
      Sample.binary.VerifyProofUsing (Sample.addr 12) sigProof (Sample.binary.Root tree)
        (Keccak256.Hash Sample.binary) = (true, none) ∧
      GenerateMerkleProofOffchain Sample.binary Sample.justification3 2 = some (hashes, none) ∧
      hashes.head? = some (List.replicate 32 0) ∧
      hashes ≠ sigProof.Hashes ∧
      Sample.binary.VerifyProofUsing (Sample.addr 12)
        { Hashes := hashes, Index := sigProof.Index } (Sample.binary.Root tree)
        (Keccak256.Hash Sample.binary) = (false, none) ∧
      ∃ msg, BuildNewSignatureCommitmentMessage Sample.binary Sample.justification3 2 [4]
          = some (msg, none) ∧
        msg.ValidatorPublicKeyMerkleProof = hashes :=
  ⟨_, _, _, rfl, by rfl, rfl, by rfl, by rfl, by rfl, rfl, by rfl, by decide, by rfl,
    _, rfl, by rfl⟩

/-! ## The complete message: decoding the bitfield and collecting the entries -/


theorem positions_foldl (bitfield : Bytes) (l : List Nat) (acc : List Int) :
    l.foldl
      (fun validatorPositions i =>
        if bitfield.getD i 0 = 49 then validatorPositions ++ [(i : Int)] else validatorPositions)
      acc
    = acc ++ (l.filter (fun i => bitfield.getD i 0 = 49)).map Int.ofNat := by
  induction l generalizing acc with
  | nil => simp
  | cons i rest ih =>
    rw [List.foldl_cons, ih, List.filter_cons]
    by_cases h : bitfield.getD i 0 = 49
    · rw [if_pos h, if_pos (decide_eq_true h)]
      simp
    · rw [if_neg h, if_neg (by simpa using h)]

/-- The first loop computes the indices of the bytes equal to `'1'`, in increasing order. -/
theorem validatorPositionsOf_eq (bitfield : Bytes) :
    validatorPositionsOf bitfield =
      ((List.range bitfield.length).filter (fun i => bitfield.getD i 0 = 49)).map Int.ofNat := by
  unfold validatorPositionsOf
  rw [positions_foldl]
  simp

theorem validatorPositionsOf_zeros (n : Nat) : validatorPositionsOf (List.replicate n 48) = [] := by
  rw [validatorPositionsOf_eq]
  simp only [List.map_eq_nil_iff, List.filter_eq_nil_iff, List.mem_range, decide_eq_true_eq]
  intro i _
  rw [List.getD_eq_getElem?_getD, List.getElem?_replicate]
  split <;> simp

/-- An error returned by the second loop is an error of `GenerateMerkleProofOffchain` for
one of the positions. -/
theorem collectLoop_error (X : Externals) (b : BeefyJustification) (positions : List Int)
    (acc : Collected) (err : GoError) (h : collectLoop X b positions acc = some (.error err)) :
    ∃ p ∈ positions, ∃ hashes, GenerateMerkleProofOffchain X b p = some (hashes, some err) := by
  induction positions generalizing acc with
  | nil => simp [collectLoop] at h
  | cons p rest ih =>
    unfold collectLoop at h
    split at h
    · cases h
    · simp only [] at h
      split at h
      · cases h
      · split at h
        · cases h
        · rename_i hashes err1 hgen
          simp only [Option.some.injEq, Except.error.injEq] at h
          subst h
          exact ⟨p, List.mem_cons_self _ _, hashes, hgen⟩
        · obtain ⟨q, hq, hashes, hgen⟩ := ih _ h
          exact ⟨q, List.mem_cons_of_mem _ hq, hashes, hgen⟩

/-- The only way in which `BuildCompleteSignatureCommitmentMessage` returns a message and a
nil error. -/
theorem BuildCompleteSignatureCommitmentMessage_ok (X : Externals) (b : BeefyJustification)
    (info : BeefyRelayInfo) (bitfield : Bytes) (msg : CompleteSignatureCommitmentMessage)
    (h : BuildCompleteSignatureCommitmentMessage X b info bitfield = some (msg, none)) :
    ∃ out, collectLoop X b (validatorPositionsOf bitfield)
        { signatures := [], validatorPublicKeys := [], validatorPublicKeyMerkleProofs := [] }
        = some (.ok out) ∧
      msg = { ID := some info.ContractID
              Commitment :=
                { Payload := b.SignedCommitment.Commitment.Payload
                  BlockNumber := b.SignedCommitment.Commitment.BlockNumber % 2 ^ 64
                  ValidatorSetId := b.SignedCommitment.Commitment.ValidatorSetID % 2 ^ 32 }
              Signatures := out.signatures
              ValidatorPositions := validatorPositionsOf bitfield
              ValidatorPublicKeys := out.validatorPublicKeys
              ValidatorPublicKeyMerkleProofs := out.validatorPublicKeyMerkleProofs } := by
  unfold BuildCompleteSignatureCommitmentMessage at h
  simp only [] at h
  split at h
  · cases h
  · simp at h
  · rename_i out hout
    simp only [Option.some.injEq, Prod.mk.injEq, and_true] at h
    exact ⟨out, hout, h.symm⟩

/-- C7: for every justification (any validator set and signature slots, empty ones
included), every relay info and every `n`, `BuildCompleteSignatureCommitmentMessage` called
with the bitfield of `n` characters `'0'` returns a nil error and a message whose
`Signatures`, `ValidatorPositions`, `ValidatorPublicKeys` and
`ValidatorPublicKeyMerkleProofs` are all empty. -/
theorem BuildCompleteSignatureCommitmentMessage_zeros (X : Externals) (b : BeefyJustification)
    (info : BeefyRelayInfo) (n : Nat) :
    ∃ msg, BuildCompleteSignatureCommitmentMessage X b info (List.replicate n 48)
        = some (msg, none) ∧
      msg.Signatures = [] ∧ msg.ValidatorPositions = [] ∧ msg.ValidatorPublicKeys = [] ∧
      msg.ValidatorPublicKeyMerkleProofs = [] := by
  unfold BuildCompleteSignatureCommitmentMessage
  simp only [validatorPositionsOf_zeros, collectLoop]
  exact ⟨_, rfl, rfl, rfl, rfl, rfl⟩

/-- C4 (as the code behaves): the numeric fields are converted without a check. Every
error `BuildCompleteSignatureCommitmentMessage` returns is an error of
`GenerateMerkleProofOffchain` for a selected position, so none reports an overflow; every
message it returns carries the payload unchanged, `BlockNumber` equal to the source block
number modulo `2^64` and `ValidatorSetId` equal to the source validator-set id modulo
`2^32`, which are the source values when these are below `2^64` and `2^32`. -/
theorem BuildCompleteSignatureCommitmentMessage_unchecked_narrowing (X : Externals)
    (b : BeefyJustification) (info : BeefyRelayInfo) (bitfield : Bytes) :
    (∀ msg err, BuildCompleteSignatureCommitmentMessage X b info bitfield = some (msg, some err) →
      ∃ p ∈ validatorPositionsOf bitfield, ∃ hashes,
        GenerateMerkleProofOffchain X b p = some (hashes, some err)) ∧
    (∀ msg, BuildCompleteSignatureCommitmentMessage X b info bitfield = some (msg, none) →
      msg.Commitment.Payload = b.SignedCommitment.Commitment.Payload ∧
      msg.Commitment.BlockNumber = b.SignedCommitment.Commitment.BlockNumber % 2 ^ 64 ∧
      msg.Commitment.ValidatorSetId = b.SignedCommitment.Commitment.ValidatorSetID % 2 ^ 32 ∧
      (b.SignedCommitment.Commitment.BlockNumber < 2 ^ 64 →
        msg.Commitment.BlockNumber = b.SignedCommitment.Commitment.BlockNumber) ∧
      (b.SignedCommitment.Commitment.ValidatorSetID < 2 ^ 32 →
        msg.Commitment.ValidatorSetId = b.SignedCommitment.Commitment.ValidatorSetID)) := by
  constructor
  · intro msg err h
    unfold BuildCompleteSignatureCommitmentMessage at h
    simp only [] at h
    split at h
    · cases h
    · rename_i err1 hloop
      simp only [Option.some.injEq, Prod.mk.injEq] at h
      obtain ⟨_, herr⟩ := h
      subst herr
      exact collectLoop_error X b _ _ err1 hloop
    · simp at h
  · intro msg h
    obtain ⟨out, _, hmsg⟩ := BuildCompleteSignatureCommitmentMessage_ok X b info bitfield msg h
    subst hmsg
    refine ⟨rfl, rfl, rfl, ?_, ?_⟩
    · intro hlt
      exact Nat.mod_eq_of_lt hlt
    · intro hlt
      exact Nat.mod_eq_of_lt hlt

set_option maxRecDepth 100000 in
/-- Witness of C4 (as the code behaves): with validator-set id 7 the returned message
carries 7, and the error of a rejecting verification is the error of proof generation. -/
theorem BuildCompleteSignatureCommitmentMessage_unchecked_narrowing_witness :
    Sample.message257.Commitment.ValidatorSetId =
      Sample.justification8.SignedCommitment.Commitment.ValidatorSetID ∧
    (∃ p ∈ validatorPositionsOf Sample.bitfield257, ∃ hashes,
      GenerateMerkleProofOffchain Sample.rejecting Sample.justification8 p =
        some (hashes, some GoError.failedToVerifyProof)) :=
  ⟨((BuildCompleteSignatureCommitmentMessage_unchecked_narrowing Sample.externals
      Sample.justification8 { ContractID := 5 } Sample.bitfield257).2 Sample.message257
      (by rfl)).2.2.2.2 (by decide),
    (BuildCompleteSignatureCommitmentMessage_unchecked_narrowing Sample.rejecting
      Sample.justification8 { ContractID := 5 } Sample.bitfield257).1
      CompleteSignatureCommitmentMessage.zero GoError.failedToVerifyProof (by rfl)⟩

set_option maxRecDepth 100000 in
/-- C4 fails on the code: a validator-set id of `2^32` does not fit in 32 bits, yet the
call returns a nil error and a message whose `ValidatorSetId` is 0, the id modulo `2^32`. -/
theorem BuildCompleteSignatureCommitmentMessage_wraps :
    Sample.justificationWide.SignedCommitment.Commitment.ValidatorSetID = 2 ^ 32 ∧
    ∃ msg, BuildCompleteSignatureCommitmentMessage Sample.externals Sample.justificationWide
        { ContractID := 5 } [49] = some (msg, none) ∧
      msg.Commitment.ValidatorSetId = 0 ∧
      msg.Commitment.ValidatorSetId ≠
        Sample.justificationWide.SignedCommitment.Commitment.ValidatorSetID :=
  ⟨by decide, _, rfl, by rfl, by decide⟩

/-! ## Signature presence and index bounds -/


theorem index?_map {α β : Type} (f : α → β) (xs : List α) (i : Int) :
    index? (xs.map f) i = (index? xs i).map f := by
  unfold index?
  split
  · simp
  · rfl

/-- Proof generation reads only the validator addresses. -/
theorem GenerateMerkleProofOffchain_congr (X : Externals) (b c : BeefyJustification)
    (haddr : c.ValidatorAddresses = b.ValidatorAddresses) (valAddrIndex : Int) :
    GenerateMerkleProofOffchain X c valAddrIndex = GenerateMerkleProofOffchain X b valAddrIndex := by
  unfold GenerateMerkleProofOffchain
  rw [haddr]

theorem slot_value_congr (b c : BeefyJustification)
    (hval : c.SignedCommitment.Signatures.map (fun slot => slot.Value) =
      b.SignedCommitment.Signatures.map (fun slot => slot.Value)) (i : Int) :
    (index? c.SignedCommitment.Signatures i).map (fun slot => slot.Value) =
      (index? b.SignedCommitment.Signatures i).map (fun slot => slot.Value) := by
  rw [← index?_map, ← index?_map, hval]

theorem collectLoop_congr (X : Externals) (b c : BeefyJustification)
    (haddr : c.ValidatorAddresses = b.ValidatorAddresses)
    (hval : c.SignedCommitment.Signatures.map (fun slot => slot.Value) =
      b.SignedCommitment.Signatures.map (fun slot => slot.Value))
    (positions : List Int) (acc : Collected) :
    collectLoop X c positions acc = collectLoop X b positions acc := by
  induction positions generalizing acc with
  | nil => rfl
  | cons p rest ih =>
    have hslot := slot_value_congr b c hval p
    unfold collectLoop
    rw [GenerateMerkleProofOffchain_congr X b c haddr p, haddr]
    cases hc : index? c.SignedCommitment.Signatures p with
    | none =>
      cases hb : index? b.SignedCommitment.Signatures p with
      | none => rfl
      | some sb => rw [hc, hb] at hslot; cases hslot
    | some sc =>
      cases hb : index? b.SignedCommitment.Signatures p with
      | none => rw [hc, hb] at hslot; cases hslot
      | some sb =>
        rw [hc, hb] at hslot
        simp only [Option.map_some', Option.some.injEq] at hslot
        simp only [hslot, ih]

/-- C3 (as the code behaves): neither builder looks at the presence of a signature. Both
read the `Value` field of the addressed slot, so two justifications with the same validator
addresses, the same commitment and the same slot values, whatever their presence flags,
give the same outcome (message, error or panic) in
`BuildNewSignatureCommitmentMessage` and in `BuildCompleteSignatureCommitmentMessage`. -/
theorem builders_ignore_presence (X : Externals) (b c : BeefyJustification)
    (haddr : c.ValidatorAddresses = b.ValidatorAddresses)
    (hcom : c.SignedCommitment.Commitment = b.SignedCommitment.Commitment)
    (hval : c.SignedCommitment.Signatures.map (fun slot => slot.Value) =
      b.SignedCommitment.Signatures.map (fun slot => slot.Value)) :
    (∀ valAddrIndex initialBitfield,
      BuildNewSignatureCommitmentMessage X c valAddrIndex initialBitfield =
        BuildNewSignatureCommitmentMessage X b valAddrIndex initialBitfield) ∧
    (∀ info bitfield,
      BuildCompleteSignatureCommitmentMessage X c info bitfield =
        BuildCompleteSignatureCommitmentMessage X b info bitfield) := by
  constructor
  · intro valAddrIndex initialBitfield
    have hslot := slot_value_congr b c hval valAddrIndex
    unfold BuildNewSignatureCommitmentMessage
    rw [GenerateMerkleProofOffchain_congr X b c haddr valAddrIndex, haddr, hcom]
    cases hc : index? c.SignedCommitment.Signatures valAddrIndex with
    | none =>
      cases hb : index? b.SignedCommitment.Signatures valAddrIndex with
      | none => rfl
      | some sb => rw [hc, hb] at hslot; cases hslot
    | some sc =>
      cases hb : index? b.SignedCommitment.Signatures valAddrIndex with
      | none => rw [hc, hb] at hslot; cases hslot
      | some sb =>
        rw [hc, hb] at hslot
        simp only [Option.map_some', Option.some.injEq] at hslot
        simp only [hslot]
  · intro info bitfield
    unfold BuildCompleteSignatureCommitmentMessage
    simp only [collectLoop_congr X b c haddr hval, hcom]

set_option maxRecDepth 100000 in
/-- Witness of C3 (as the code behaves): an empty slot and a present slot holding the same
65 zero bytes give the same initial message. -/
theorem builders_ignore_presence_witness :
    BuildNewSignatureCommitmentMessage Sample.externals Sample.justificationAbsent 0 [1] =
      BuildNewSignatureCommitmentMessage Sample.externals Sample.justificationZeroSigned 0 [1] :=
  (builders_ignore_presence Sample.externals Sample.justificationZeroSigned
    Sample.justificationAbsent (by rfl) (by rfl) (by rfl)).1 0 [1]

set_option maxRecDepth 100000 in
/-- C3 fails on the code: the only signature slot is empty, yet both builders return a
message with a nil error, built from the zero bytes of the empty slot. -/
theorem builders_accept_absent_signature :
    (index? Sample.justificationAbsent.SignedCommitment.Signatures 0).map
      (fun slot => slot.hasValue) = some false ∧
    (∃ msg, BuildNewSignatureCommitmentMessage Sample.externals Sample.justificationAbsent 0 [1]
        = some (msg, none) ∧
      msg.ValidatorSignatureCommitment = Sample.sig 0 27) ∧
    (∃ msg, BuildCompleteSignatureCommitmentMessage Sample.externals Sample.justificationAbsent
        { ContractID := 5 } [49] = some (msg, none) ∧
      msg.ValidatorPositions = [0] ∧ msg.Signatures = [Sample.sig 0 27]) :=
  ⟨by rfl, ⟨_, rfl, by rfl⟩, ⟨_, rfl, by rfl, by rfl⟩⟩

/-- C8 (as the code behaves): the validator index is not bounds-checked. For an index
outside `[0, number of validators)` the call panics with index out of range once the tree
over the validator set has been built, and returns the construction error with the zero
message when construction fails. For every index on which it succeeds the index is in
range, `ValidatorClaimsBitfield` is the bitfield passed in, `ValidatorPosition` is the index
and `ValidatorPublicKey` is the validator address at that index. -/
theorem BuildNewSignatureCommitmentMessage_index (X : Externals) (b : BeefyJustification)
    (valAddrIndex : Int) (initialBitfield : List Int) :
    ((valAddrIndex < 0 ∨ (b.ValidatorAddresses.length : Int) ≤ valAddrIndex) →
      (∀ tree, X.NewUsing (b.ValidatorAddresses.map Address.Bytes) (Keccak256.Hash X) = .ok tree →
        BuildNewSignatureCommitmentMessage X b valAddrIndex initialBitfield = none) ∧
      (∀ err, X.NewUsing (b.ValidatorAddresses.map Address.Bytes) (Keccak256.Hash X)
          = .error err →
        BuildNewSignatureCommitmentMessage X b valAddrIndex initialBitfield =
          some (NewSignatureCommitmentMessage.zero, some err))) ∧
    (∀ msg, BuildNewSignatureCommitmentMessage X b valAddrIndex initialBitfield = some (msg, none) →
      0 ≤ valAddrIndex ∧ valAddrIndex < (b.ValidatorAddresses.length : Int) ∧
      msg.ValidatorClaimsBitfield = initialBitfield ∧
      msg.ValidatorPosition = some valAddrIndex ∧
      index? b.ValidatorAddresses valAddrIndex = some msg.ValidatorPublicKey) := by
  constructor
  · intro hout
    have hnone : index? (b.ValidatorAddresses.map Address.Bytes) valAddrIndex = none := by
      rw [index?_eq_none, List.length_map]
      exact hout
    constructor
    · intro tree htree
      unfold BuildNewSignatureCommitmentMessage GenerateMerkleProofOffchain
      simp only [htree, hnone]
    · intro err herr
      unfold BuildNewSignatureCommitmentMessage GenerateMerkleProofOffchain
      simp only [herr]
  · intro msg h
    obtain ⟨proofContents, slot, pubKey, _, _, hkey, hmsg⟩ :=
      BuildNewSignatureCommitmentMessage_ok X b valAddrIndex initialBitfield msg h
    obtain ⟨h0, hlt, _⟩ := index?_eq_some _ _ _ hkey
    subst hmsg
    refine ⟨h0, ?_, rfl, rfl, hkey⟩
    omega

set_option maxRecDepth 100000 in
/-- Witness of C8 (as the code behaves): index 8 of eight validators panics, and index 2
gives a message with the bitfield passed in, position 2 and the address at position 2. -/
theorem BuildNewSignatureCommitmentMessage_index_witness :
    BuildNewSignatureCommitmentMessage Sample.externals Sample.justification8 8 [4] = none ∧
    (∃ msg, BuildNewSignatureCommitmentMessage Sample.externals Sample.justification8 2 [4]
        = some (msg, none) ∧
      msg.ValidatorClaimsBitfield = [4] ∧ msg.ValidatorPosition = some 2 ∧
      index? Sample.justification8.ValidatorAddresses 2 = some msg.ValidatorPublicKey) :=
  ⟨((BuildNewSignatureCommitmentMessage_index Sample.externals Sample.justification8 8 [4]).1
      (Or.inr (by decide))).1
      { data := Sample.justification8.ValidatorAddresses
        nodes := Sample.justification8.ValidatorAddresses.map Sample.digest } (by rfl),
    _, rfl,
    ((BuildNewSignatureCommitmentMessage_index Sample.externals Sample.justification8 2
      [4]).2 _ (by rfl)).2.2⟩

set_option maxRecDepth 100000 in
/-- C8 fails on the code: with eight validators, the index 8 and the index -1 are out of
range and the call panics with index out of range instead of returning an error. -/
theorem BuildNewSignatureCommitmentMessage_panics :
    Sample.justification8.ValidatorAddresses.length = 8 ∧
    BuildNewSignatureCommitmentMessage Sample.externals Sample.justification8 8 [4] = none ∧
    BuildNewSignatureCommitmentMessage Sample.externals Sample.justification8 (-1) [4] = none :=
  ⟨by rfl, by rfl, by rfl⟩

end Store

/-! ## The Ethereum relay worker -/

namespace Ethrelayer

open Store (GoError)

theorem listenerStarts_append (l₁ l₂ : List Event) :
    listenerStarts (l₁ ++ l₂) = listenerStarts l₁ ++ listenerStarts l₂ := by
  induction l₁ with
  | nil => rfl
  | cons e rest ih => cases e <;> simp [listenerStarts, ih]

/-- The result of `connect` when the key pair and both connections succeed. -/
theorem connect_ok (env : Env) (s : State) (hkey : env.newKeypairFromSeed = none)
    (heth : env.ethConnect = none) (hpara : env.paraConnect = none) :
    Worker.connect env s =
      ({ w := { DescendantsUntilFinal := s.w.DescendantsUntilFinal
                ethconn := some { connected := true }
                paraconn := some { connected := true } }
         trace := s.trace ++ [Event.ethConnected] ++ [Event.paraConnected] }, none) := by
  unfold Worker.connect
  simp only [hkey, heth, hpara]

/-- C9 (as the code behaves): in every run of `Start` in which connecting succeeds and the
query of the finalized block number returns `c` with a nil error, the only call of
`listener.Start` is made with start block `(c + 1) mod 2^64` and finality depth
`DescendantsUntilFinal` (as a `uint64`); the start block is exactly `c + 1` whenever
`c < 2^64 - 1`. If the query returns an error, `Start` returns that error and neither
`listener.Start` nor `writer.Start` is called. -/
theorem Start_resumes_after_cursor (env : Env) (w : Worker)
    (hkey : env.newKeypairFromSeed = none) (heth : env.ethConnect = none)
    (hpara : env.paraConnect = none) :
    (∀ c, Worker.queryFinalizedBlockNumber env = (c, none) →
      listenerStarts (Worker.Start env w).1.trace =
        [((c + 1) % 2 ^ 64, w.DescendantsUntilFinal % 2 ^ 64)] ∧
      (c < 2 ^ 64 - 1 → w.DescendantsUntilFinal < 2 ^ 64 →
        listenerStarts (Worker.Start env w).1.trace = [(c + 1, w.DescendantsUntilFinal)])) ∧
    (∀ c err, Worker.queryFinalizedBlockNumber env = (c, some err) →
      (Worker.Start env w).2 = some err ∧
      listenerStarts (Worker.Start env w).1.trace = [] ∧
      Event.writerStart ∉ (Worker.Start env w).1.trace) := by
  constructor
  · intro c hq
    have hstart : listenerStarts (Worker.Start env w).1.trace =
        [((c + 1) % 2 ^ 64, w.DescendantsUntilFinal % 2 ^ 64)] := by
      unfold Worker.Start
      rw [connect_ok env _ hkey heth hpara]
      simp only [hq]
      cases env.listenerStart ((c + 1) % 2 ^ 64) (w.DescendantsUntilFinal % 2 ^ 64) with
      | some err => simp [listenerStarts]
      | none => cases env.writerStart <;> simp [listenerStarts]
    refine ⟨hstart, ?_⟩
    intro hc hd
    rw [hstart, Nat.mod_eq_of_lt (by omega), Nat.mod_eq_of_lt hd]
  · intro c err hq
    unfold Worker.Start
    rw [connect_ok env _ hkey heth hpara]
    simp [hq, listenerStarts]

/-- Witness of C9 (as the code behaves): with finalized block number 100 the listener is
started from block 101 with depth 12. -/
theorem Start_resumes_after_cursor_witness :
    listenerStarts (Worker.Start (Sample.envOk 100) Sample.worker0).1.trace = [(101, 12)] ∧
    (Worker.Start Sample.envQueryFails Sample.worker0).2 = some (GoError.external 9) :=
  ⟨((Start_resumes_after_cursor (Sample.envOk 100) Sample.worker0 rfl rfl rfl).1 100 rfl).2
      (by decide) (by decide),
    ((Start_resumes_after_cursor Sample.envQueryFails Sample.worker0 rfl rfl rfl).2 0
      (GoError.external 9) rfl).1⟩

/-- C9 fails on the code at the largest `uint64`: connecting and the query succeed with
`c = 2^64 - 1`, and the listener is started from block 0, not from `c + 1`. -/
theorem Start_cursor_wraps :
    Worker.queryFinalizedBlockNumber (Sample.envOk 18446744073709551615) =
      (18446744073709551615, none) ∧
    (Worker.Start (Sample.envOk 18446744073709551615) Sample.worker0).2 = none ∧
    listenerStarts (Worker.Start (Sample.envOk 18446744073709551615) Sample.worker0).1.trace =
      [(0, 12)] := by
  decide

/-- C10 fails on the code: when the Ethereum connection opens and the parachain connection
then fails, `Start` returns the error while the Ethereum connection is open, nothing has
closed it, no cleanup task has been registered, and cancelling the context afterwards
leaves it open. -/
theorem Start_leaks_ethereum_connection :
    (Worker.Start Sample.envParaFails Sample.worker0).2 = some (GoError.external 7) ∧
    (Worker.Start Sample.envParaFails Sample.worker0).1.trace = [Event.ethConnected] ∧
    (Worker.Start Sample.envParaFails Sample.worker0).1.w.ethconn =
      some { connected := true } ∧
    Event.cleanupRegistered ∉ (Worker.Start Sample.envParaFails Sample.worker0).1.trace ∧
    Event.ethClosed ∉ (Worker.Start Sample.envParaFails Sample.worker0).1.trace ∧
    (cancel (Worker.Start Sample.envParaFails Sample.worker0).1).w.ethconn =
      some { connected := true } := by
  decide

end Ethrelayer
